import Mathlib

/-!
Verification development for the Array Task Dispatcher
(`src/flytekit/core/map_task.py`, class `MapPythonTask`).

The Python source is shallowly embedded below.  Pure values of the element
computation are abstracted by type parameters: `α` is the scalar input value
type, `β` the scalar output value type, `ε` the type of failures the element
computation itself can raise.  Python list indexing, the environment-variable
index arithmetic and the local batch loop are translated line by line from the
source; fallible operations return `Except`.
-/

set_option maxHeartbeats 1000000

namespace MapTaskModel

variable {α β ε : Type}

/-- Decidable equality on `Except`, so concrete runs of the embedded
operations can be checked by `decide`. -/
instance exceptDecEq {σ γ : Type} [DecidableEq σ] [DecidableEq γ] :
    DecidableEq (Except σ γ) := fun x y =>
  match x, y with
  | Except.ok a, Except.ok b =>
    if h : a = b then Decidable.isTrue (by rw [h])
    else Decidable.isFalse (fun he => h (by cases he; rfl))
  | Except.ok _, Except.error _ => Decidable.isFalse (fun he => Except.noConfusion he)
  | Except.error _, Except.ok _ => Decidable.isFalse (fun he => Except.noConfusion he)
  | Except.error a, Except.error b =>
    if h : a = b then Decidable.isTrue (by rw [h])
    else Decidable.isFalse (fun he => h (by cases he; rfl))

/-- A type in a task signature: a named base type or a collection of a type. -/
inductive Ty where
  | base : String → Ty
  | list : Ty → Ty
  deriving DecidableEq

/-- Ordered input/output signature of a task (parameter name paired with its
type), mirroring flytekit's interface objects. -/
structure TypedInterface where
  inputs : List (String × Ty)
  outputs : List (String × Ty)
  deriving DecidableEq

/-- Modelled from the spec: ElementTask, the wrapped single-element computation
(flytekit's `PythonFunctionTask`, whose implementation is not among the
sources).  Per the spec it exposes a scalar interface and an
`execute(scalarInputs) -> scalarOutputs` operation; `execute` consumes the
scalar input mapping (assembled in interface key order) and returns the ordered
list of its declared output values, or a failure of type `ε`. -/
structure ElementTask (α β ε : Type) where
  interface : TypedInterface
  execute : List (String × α) → Except ε (List β)

/-- Modelled from the spec:
`flytekit.core.interface.transform_interface_to_list_interface` (not among the
sources).  Same parameter names in the same order, every type `T` replaced by
collection-of-`T`, on both inputs and outputs. -/
def transform_interface_to_list_interface (i : TypedInterface) : TypedInterface :=
  ⟨i.inputs.map (fun q => (q.1, Ty.list q.2)), i.outputs.map (fun q => (q.1, Ty.list q.2))⟩

/-- Failures surfaced by the dispatcher.  `indexError` models Python's
IndexError from out-of-range list indexing (including `list(keys)[0]` on an
empty key list); `configError` models a failure of the environment-variable
index computation; `userError` wraps a failure raised by the element task. -/
inductive PyErr (ε : Type) where
  | indexError : PyErr ε
  | configError : PyErr ε
  | userError : ε → PyErr ε
  deriving DecidableEq

/-- The failure kind of the index resolver.  The source raises builtin
`TypeError`/`ValueError` on these paths; the spec names this failure kind
ConfigurationError, and the embedding keeps the spec's name. -/
inductive ConfigurationError where
  | configurationError
  deriving DecidableEq

/-- Ambient execution context, from
`FlyteContext.current_context().execution_state`: `taskExecution` is
`ExecutionState.Mode.TASK_EXECUTION` (a distributed slot),
`localWorkflowExecution` is `ExecutionState.Mode.LOCAL_WORKFLOW_EXECUTION`
(a higher-level local-workflow simulation), `other` covers a missing execution
state and every other mode. -/
inductive ExecMode where
  | taskExecution
  | localWorkflowExecution
  | other
  deriving DecidableEq

/-- The dispatcher: one wrapped element task, the derived collection interface,
and the declarative concurrency parameters (pure data, never interpreted
locally). -/
structure MapPythonTask (α β ε : Type) where
  run_task : ElementTask α β ε
  interface : TypedInterface
  max_concurrency : Option Nat
  min_success_ratio : Option Rat

/-- `MapPythonTask.__init__`: store the element task and derive the collection
interface from its scalar interface, once, at construction. -/
def MapPythonTask.init (e : ElementTask α β ε) (concurrency : Option Nat)
    (min_success_ratio : Option Rat) : MapPythonTask α β ε :=
  ⟨e, transform_interface_to_list_interface e.interface, concurrency, min_success_ratio⟩

/-- Value of a nonempty all-digit character list; `none` when empty or when any
character is not a decimal digit.  Helper for `pyInt`. -/
def digitsVal (cs : List Char) : Option Nat :=
  cs.foldl (fun acc c => acc.bind (fun n => if c.isDigit then some (10 * n + (c.toNat - 48)) else none))
    (some 0)

/-- Digit-list parse that rejects the empty list, as Python `int("")` does. -/
def digitsToNat (cs : List Char) : Option Nat :=
  if cs.isEmpty then none else digitsVal cs

/-- Strip leading and trailing whitespace from a character list. -/
def trimChars (cs : List Char) : List Char :=
  ((cs.dropWhile Char.isWhitespace).reverse.dropWhile Char.isWhitespace).reverse

/-- Modelled Python builtin `int()` applied to a string: surrounding whitespace
is stripped, an optional single sign precedes one or more decimal digits;
anything else fails (digit-group underscores are not modelled). -/
def pyInt (s : String) : Option Int :=
  match trimChars s.toList with
  | '+' :: rest => (digitsToNat rest).map (fun n => (n : Int))
  | '-' :: rest => (digitsToNat rest).map (fun n => -(n : Int))
  | cs => (digitsToNat cs).map (fun n => (n : Int))

/-- Process environment snapshot: `os.environ.get`, `none` when unset. -/
def Env : Type := String → Option String

/-- The indirection chain
`int(os.environ.get(os.environ.get("BATCH_JOB_ARRAY_INDEX_VAR_NAME")))` plus the
already-computed offset.  Every failure (indirection variable unset, named
variable unset, named variable's value not an integer) is fatal. -/
def rawIndexChain (env : Env) (offset : Int) : Except ConfigurationError Int :=
  match env "BATCH_JOB_ARRAY_INDEX_VAR_NAME" with
  | none => Except.error ConfigurationError.configurationError
  | some name =>
    match env name with
    | none => Except.error ConfigurationError.configurationError
    | some v =>
      match pyInt v with
      | none => Except.error ConfigurationError.configurationError
      | some raw => Except.ok (offset + raw)

/-- `MapPythonTask._compute_array_job_index`.  The truthiness test
`if os.environ.get("BATCH_JOB_ARRAY_INDEX_OFFSET"):` treats an unset variable
and a variable set to the empty string alike (the offset stays 0); a set
non-empty value is parsed with `int()` and a parse failure is fatal. -/
def MapPythonTask._compute_array_job_index (env : Env) : Except ConfigurationError Int :=
  match env "BATCH_JOB_ARRAY_INDEX_OFFSET" with
  | none => rawIndexChain env 0
  | some s =>
    if s = "" then rawIndexChain env 0
    else
      match pyInt s with
      | none => Except.error ConfigurationError.configurationError
      | some off => rawIndexChain env off

/-- Python list indexing `l[i]` with a possibly negative index: negative
indices count from the end; out of range yields `none` (IndexError). -/
def pyGetInt (l : List α) (i : Int) : Option α :=
  if 0 ≤ i then l[i.toNat]?
  else if 0 ≤ i + (l.length : Int) then l[(i + (l.length : Int)).toNat]? else none

/-- `l[i]` for a natural loop index, raising IndexError out of range. -/
def pyIndex (l : List α) (i : Nat) : Except (PyErr ε) α :=
  match l[i]? with
  | some v => Except.ok v
  | none => Except.error PyErr.indexError

/-- `l[i]` for the (possibly negative) resolved slot index. -/
def pyIndexInt (l : List α) (i : Int) : Except (PyErr ε) α :=
  match pyGetInt l i with
  | some v => Except.ok v
  | none => Except.error PyErr.indexError

/-- Body of
`for k in self.interface.inputs.keys(): single_instance_inputs[k] = kwargs[k][i]`:
the scalar input mapping for position `i`, assembled in interface key order. -/
def buildSingleInputs : List String → (String → List α) → Nat → Except (PyErr ε) (List (String × α))
  | [], _, _ => Except.ok []
  | kk :: rest, kwargs, i => do
    let v ← pyIndex (kwargs kk) i
    let tl ← buildSingleInputs rest kwargs i
    Except.ok ((kk, v) :: tl)

/-- Body of
`for k in self.interface.inputs.keys(): map_task_inputs[k] = kwargs[k][task_index]`:
the scalar input mapping for the resolved slot index. -/
def buildSlotInputs : List String → (String → List α) → Int → Except (PyErr ε) (List (String × α))
  | [], _, _ => Except.ok []
  | kk :: rest, kwargs, idx => do
    let v ← pyIndexInt (kwargs kk) idx
    let tl ← buildSlotInputs rest kwargs idx
    Except.ok ((kk, v) :: tl)

/-- Body of `for x in range(len(outputs)): outputs[x].append(o[x])`, processing
the accumulators from output slot `x` on; `o[x]` out of range is IndexError. -/
def appendOutputs : List (List β) → List β → Nat → Except (PyErr ε) (List (List β))
  | [], _, _ => Except.ok []
  | acc :: rest, o, x => do
    let v ← pyIndex o x
    let tl ← appendOutputs rest o (x + 1)
    Except.ok ((acc ++ [v]) :: tl)

/-- The position loop of `_raw_execute`:
`for i in range(len(kwargs[any_input_key])): ...`, threading the output
accumulators; a failure of the element task propagates immediately. -/
def rawLoop (exec : List (String × α) → Except ε (List β)) (keys : List String)
    (kwargs : String → List α) (outputsExpected : Bool) :
    List Nat → List (List β) → Except (PyErr ε) (List (List β))
  | [], outs => Except.ok outs
  | i :: rest, outs =>
    (buildSingleInputs keys kwargs i).bind fun ins =>
    ((exec ins).mapError PyErr.userError).bind fun o =>
    (if outputsExpected then appendOutputs outs o 0 else Except.ok outs).bind fun outs' =>
    rawLoop exec keys kwargs outputsExpected rest outs'

/-- Assoc-list lookup modelling Python dict lookup on an interface
(`KeyError` = `none`). -/
def lookupVar (k : String) : List (String × Ty) → Option Ty
  | [] => none
  | q :: rest => if q.1 = k then some q.2 else lookupVar k rest

/-- `MapPythonTask._outputs_interface`: in `LOCAL_WORKFLOW_EXECUTION` the
dispatcher's own (collection) output interface, otherwise the wrapped element
task's scalar output interface. -/
def MapPythonTask._outputs_interface (t : MapPythonTask α β ε) (ctx : ExecMode) :
    List (String × Ty) :=
  if ctx = ExecMode.localWorkflowExecution then t.interface.outputs
  else t.run_task.interface.outputs

/-- `MapPythonTask.get_type_for_output_var`: the declared type of output `k`,
from the collection interface in `LOCAL_WORKFLOW_EXECUTION` and from the
element task's scalar interface otherwise. -/
def MapPythonTask.get_type_for_output_var (t : MapPythonTask α β ε) (ctx : ExecMode)
    (k : String) : Option Ty :=
  if ctx = ExecMode.localWorkflowExecution then lookupVar k t.interface.outputs
  else lookupVar k t.run_task.interface.outputs

/-- Result of a local batch execution: `single` is the bare collection returned
when exactly one accumulator exists (`return outputs[0]`), `tup` the tuple of
accumulators returned otherwise (`return tuple(outputs)`). -/
inductive RawResult (β : Type) where
  | single : List β → RawResult β
  | tup : List (List β) → RawResult β
  deriving DecidableEq

/-- The output accumulators carried by a local batch result. -/
def RawResult.accumulators : RawResult β → List (List β)
  | RawResult.single l => [l]
  | RawResult.tup ls => ls

/-- `MapPythonTask._raw_execute`, the local-emulation path, translated line by
line.  `any_input_key` comes from
`list(inputs.keys())[0] if inputs.items() is not None else None`: in Python
`items()` is never `None`, so the guard always takes the first branch and the
`[0]` access raises IndexError on an empty input interface. -/
def MapPythonTask._raw_execute (t : MapPythonTask α β ε) (ctx : ExecMode)
    (kwargs : String → List α) : Except (PyErr ε) (RawResult β) :=
  (match t.run_task.interface.inputs with
   | [] => Except.error PyErr.indexError
   | q :: _ => Except.ok q.1).bind fun any_input_key =>
  (rawLoop t.run_task.execute (t.interface.inputs.map Prod.fst) kwargs
      (!t.interface.outputs.isEmpty)
      (List.range (kwargs any_input_key).length)
      ((t._outputs_interface ctx).map (fun _ => []))).bind fun outs =>
  if outs.length = 1 then Except.ok (RawResult.single (outs.getD 0 []))
  else Except.ok (RawResult.tup outs)

/-- `MapPythonTask._execute_map_task`, the distributed single-slot path:
resolve the slot index, index every input collection there, run the element
task once and hand its result back unchanged. -/
def MapPythonTask._execute_map_task (t : MapPythonTask α β ε) (env : Env)
    (kwargs : String → List α) : Except (PyErr ε) (List β) :=
  (match MapPythonTask._compute_array_job_index env with
   | Except.ok i => Except.ok i
   | Except.error _ => Except.error PyErr.configError).bind fun task_index =>
  (buildSlotInputs (t.interface.inputs.map Prod.fst) kwargs task_index).bind fun map_task_inputs =>
  (t.run_task.execute map_task_inputs).mapError PyErr.userError

/-- Result of the dispatcher's `execute`: one slot's scalar outputs in
distributed mode, the assembled batch outputs in local emulation. -/
inductive ExecResult (β : Type) where
  | slot : List β → ExecResult β
  | batch : RawResult β → ExecResult β

/-- `MapPythonTask.execute`: dispatch on the ambient execution mode. -/
def MapPythonTask.execute (t : MapPythonTask α β ε) (ctx : ExecMode) (env : Env)
    (kwargs : String → List α) : Except (PyErr ε) (ExecResult β) :=
  if ctx = ExecMode.taskExecution then (t._execute_map_task env kwargs).map ExecResult.slot
  else (t._raw_execute ctx kwargs).map ExecResult.batch

/-! Concrete element tasks, batch inputs and environments used to instantiate
the theorems below on executable inputs. -/

/-- Element computation that doubles an integer: one input `a`, one output. -/
def exDouble : ElementTask Int Int Unit :=
  ⟨⟨[("a", Ty.base "int")], [("o", Ty.base "int")]⟩,
   fun ins =>
     match ins with
     | [(_, v)] => Except.ok [2 * v]
     | _ => Except.error ()⟩

/-- Element computation with two declared outputs: successor and double. -/
def exPair : ElementTask Int Int Unit :=
  ⟨⟨[("a", Ty.base "int")], [("s", Ty.base "int"), ("d", Ty.base "int")]⟩,
   fun ins =>
     match ins with
     | [(_, v)] => Except.ok [v + 1, 2 * v]
     | _ => Except.error ()⟩

/-- Element computation with no declared outputs (side effects only). -/
def exVoid : ElementTask Int Int Unit :=
  ⟨⟨[("a", Ty.base "int")], []⟩, fun _ => Except.ok []⟩

/-- Element computation that fails exactly on the input value 2. -/
def exFragile : ElementTask Int Int Unit :=
  ⟨⟨[("a", Ty.base "int")], [("o", Ty.base "int")]⟩,
   fun ins =>
     match ins with
     | [(_, v)] => if v = 2 then Except.error () else Except.ok [2 * v]
     | _ => Except.error ()⟩

/-- Scalar result of the two-input adding element computation. -/
def exAddSum (ins : List (String × Int)) : Int :=
  match ins with
  | [(_, v), (_, w)] => v + w
  | _ => 0

/-- Two-input element computation adding its arguments; never fails. -/
def exAdd : ElementTask Int Int Unit :=
  ⟨⟨[("a", Ty.base "int"), ("b", Ty.base "int")], [("o", Ty.base "int")]⟩,
   fun ins => Except.ok [exAddSum ins]⟩

/-- Element computation whose input interface is empty. -/
def exNullary : ElementTask Int Int Unit :=
  ⟨⟨[], [("o", Ty.base "int")]⟩, fun _ => Except.ok [0]⟩

/-- Element computation that increments an integer: one input `a`, one output. -/
def exInc : ElementTask Int Int Unit :=
  ⟨⟨[("a", Ty.base "int")], [("o", Ty.base "int")]⟩,
   fun ins =>
     match ins with
     | [(_, v)] => Except.ok [v + 1]
     | _ => Except.error ()⟩

/-- Batch input binding `a` to `[1, 2, 3]`. -/
def kwTriple : String → List Int := fun s => if s = "a" then [1, 2, 3] else []

/-- Batch input with `a` of length 3 but `b` only of length 1. -/
def kwRagged : String → List Int :=
  fun s => if s = "a" then [1, 2, 3] else if s = "b" then [10] else []

/-- Batch input with `a` of length 2 and a longer `b` of length 3. -/
def kwLong : String → List Int :=
  fun s => if s = "a" then [1, 2] else if s = "b" then [10, 20, 30] else []

/-- `kwLong` with `b` truncated to the length of `a`. -/
def kwCut : String → List Int :=
  fun s => if s = "a" then [1, 2] else if s = "b" then [10, 20] else []

/-- Batch input binding `a` to `[10, 20, 30]`, for the distributed-slot path. -/
def kwSlots : String → List Int := fun s => if s = "a" then [10, 20, 30] else []

/-- Environment of spec Example B: offset `"10"`, raw index `"1"`. -/
def envExampleB : Env := fun s =>
  if s = "BATCH_JOB_ARRAY_INDEX_OFFSET" then some "10"
  else if s = "BATCH_JOB_ARRAY_INDEX_VAR_NAME" then some "AWS_BATCH_JOB_ARRAY_INDEX"
  else if s = "AWS_BATCH_JOB_ARRAY_INDEX" then some "1" else none

/-- Environment whose offset variable is set to the empty string while the
raw-index chain resolves to `"1"`. -/
def envEmptyOffset : Env := fun s =>
  if s = "BATCH_JOB_ARRAY_INDEX_OFFSET" then some ""
  else if s = "BATCH_JOB_ARRAY_INDEX_VAR_NAME" then some "X"
  else if s = "X" then some "1" else none

/-- Environment with no variables set at all. -/
def envUnset : Env := fun _ => none

/-- Environment resolving the slot index to 1, with no offset. -/
def envSlotOne : Env := fun s =>
  if s = "BATCH_JOB_ARRAY_INDEX_VAR_NAME" then some "IDX"
  else if s = "IDX" then some "1" else none

/-! Helper lemmas about the embedded operations. -/

theorem transform_inputs_names (i : TypedInterface) :
    (transform_interface_to_list_interface i).inputs.map Prod.fst = i.inputs.map Prod.fst := by
  simp [transform_interface_to_list_interface]

theorem transform_outputs_length (i : TypedInterface) :
    (transform_interface_to_list_interface i).outputs.length = i.outputs.length := by
  simp [transform_interface_to_list_interface]

theorem ok_bind {σ γ δ : Type} (a : γ) (f : γ → Except σ δ) :
    (Except.ok a >>= f) = f a := rfl

theorem error_bind {σ γ δ : Type} (s : σ) (f : γ → Except σ δ) :
    ((Except.error s : Except σ γ) >>= f) = Except.error s := rfl

theorem mapError_ok {σ τ γ : Type} (g : σ → τ) (a : γ) :
    (Except.ok a : Except σ γ).mapError g = Except.ok a := rfl

theorem mapError_error {σ τ γ : Type} (g : σ → τ) (s : σ) :
    (Except.error s : Except σ γ).mapError g = Except.error (g s) := rfl

theorem bind_of_ok {σ γ δ : Type} (a : γ) (f : γ → Except σ δ) :
    (Except.ok a : Except σ γ).bind f = f a := rfl

theorem bind_of_error {σ γ δ : Type} (s : σ) (f : γ → Except σ δ) :
    (Except.error s : Except σ γ).bind f = Except.error s := rfl

theorem getD_map_nil {γ : Type} (l : List γ) (j : Nat) :
    (l.map (fun _ => ([] : List β))).getD j [] = [] := by
  induction l generalizing j with
  | nil => simp [List.getD]
  | cons a tl ih =>
    cases j with
    | zero => simp
    | succ j =>
      rw [List.map_cons, List.getD_cons_succ]
      exact ih j

theorem map_getD_range {γ : Type} (l : List γ) (d : γ) :
    (List.range l.length).map (fun j => l.getD j d) = l := by
  induction l with
  | nil => simp
  | cons a tl ih =>
    rw [List.length_cons, List.range_succ_eq_map, List.map_cons, List.map_map]
    have hc : ((fun j => (a :: tl).getD j d) ∘ Nat.succ) = fun j => tl.getD j d := by
      funext j
      simp
    rw [hc, ih]
    simp

theorem getD_map_range {γ : Type} (f : Nat → γ) (k j : Nat) (d : γ) (h : j < k) :
    ((List.range k).map f).getD j d = f j := by
  simp [List.getD, List.getElem?_map, List.getElem?_range h]

theorem pyIndex_ok {l : List α} {i : Nat} {v : α} (h : l[i]? = some v) :
    pyIndex (ε := ε) l i = Except.ok v := by
  simp [pyIndex, h]

theorem pyIndex_map_range (g : Nat → β) (k x : Nat) (h : x < k) :
    pyIndex (ε := ε) ((List.range k).map g) x = Except.ok (g x) := by
  simp [pyIndex, List.getElem?_map, List.getElem?_range h]

theorem appendOutputs_ok (g : Nat → β) (k : Nat) :
    ∀ (outs : List (List β)) (x : Nat), x + outs.length ≤ k →
    appendOutputs (ε := ε) outs ((List.range k).map g) x =
      Except.ok ((List.range outs.length).map (fun j => outs.getD j [] ++ [g (x + j)])) := by
  intro outs
  induction outs with
  | nil =>
    intro x _
    simp [appendOutputs]
  | cons acc rest ih =>
    intro x hx
    have hxk : x < k := by
      simp [List.length_cons] at hx
      omega
    have hrest := ih (x + 1) (by simp at hx ⊢; omega)
    rw [appendOutputs, pyIndex_map_range g k x hxk, ok_bind, hrest, ok_bind,
      List.length_cons, List.range_succ_eq_map, List.map_cons, List.map_map]
    have harg : List.map ((fun j => (acc :: rest).getD j [] ++ [g (x + j)]) ∘ Nat.succ)
        (List.range rest.length)
        = List.map (fun j => rest.getD j [] ++ [g (x + 1 + j)]) (List.range rest.length) := by
      apply List.map_congr_left
      intro j _
      simp only [Function.comp_apply, List.getD_cons_succ]
      have hxj : x + (j + 1) = x + 1 + j := by omega
      rw [hxj]
    rw [harg]
    simp

theorem rawLoop_ok (exec : List (String × α) → Except ε (List β)) (keys : List String)
    (kwargs : String → List α) (out : Nat → Nat → β) (k : Nat)
    (ins : Nat → List (String × α)) :
    ∀ (is : List Nat) (outs : List (List β)), outs.length = k →
    (∀ i ∈ is, buildSingleInputs (ε := ε) keys kwargs i = Except.ok (ins i)) →
    (∀ i ∈ is, exec (ins i) = Except.ok ((List.range k).map (out i))) →
    rawLoop exec keys kwargs true is outs =
      Except.ok ((List.range k).map (fun j => outs.getD j [] ++ is.map (fun i => out i j))) := by
  intro is
  induction is with
  | nil =>
    intro outs hlen _ _
    subst hlen
    rw [rawLoop]
    simp only [List.map_nil, List.append_nil]
    rw [map_getD_range]
  | cons i rest ih =>
    intro outs hlen hins hexec
    have hbuild := hins i (by simp)
    have hex := hexec i (by simp)
    rw [rawLoop, hbuild, bind_of_ok, hex, mapError_ok, bind_of_ok]
    have happ := appendOutputs_ok (ε := ε) (out i) k outs 0 (by omega)
    simp only [Nat.zero_add] at happ
    rw [if_pos rfl, happ, bind_of_ok]
    have hlen' : ((List.range outs.length).map (fun j => outs.getD j [] ++ [out i j])).length = k := by
      simp [hlen]
    rw [ih _ hlen' (fun i' hi' => hins i' (by simp [hi'])) (fun i' hi' => hexec i' (by simp [hi']))]
    congr 1
    apply List.map_congr_left
    intro j hj
    rw [List.mem_range] at hj
    rw [getD_map_range _ _ _ _ (by omega)]
    simp [hlen]

theorem rawLoop_false (exec : List (String × α) → Except ε (List β)) (keys : List String)
    (kwargs : String → List α) (ins : Nat → List (String × α)) (os : Nat → List β) :
    ∀ (is : List Nat) (outs : List (List β)),
    (∀ i ∈ is, buildSingleInputs (ε := ε) keys kwargs i = Except.ok (ins i)) →
    (∀ i ∈ is, exec (ins i) = Except.ok (os i)) →
    rawLoop exec keys kwargs false is outs = Except.ok outs := by
  intro is
  induction is with
  | nil =>
    intro outs _ _
    rfl
  | cons i rest ih =>
    intro outs hins hexec
    rw [rawLoop, hins i (by simp), bind_of_ok, hexec i (by simp), mapError_ok, bind_of_ok,
      if_neg (by simp), bind_of_ok]
    exact ih outs (fun i' hi' => hins i' (by simp [hi'])) (fun i' hi' => hexec i' (by simp [hi']))

theorem rawLoop_false_len (exec : List (String × α) → Except ε (List β)) (keys : List String)
    (kwargs : String → List α) :
    ∀ (is : List Nat) (outs : List (List β)),
    (∀ i ∈ is, ∃ ins, buildSingleInputs (ε := ε) keys kwargs i = Except.ok ins ∧
      ∃ o, exec ins = Except.ok o) →
    rawLoop exec keys kwargs false is outs = Except.ok outs := by
  intro is
  induction is with
  | nil =>
    intro outs _
    rfl
  | cons i rest ih =>
    intro outs h
    obtain ⟨ins, hb, o, he⟩ := h i (by simp)
    rw [rawLoop, hb, bind_of_ok, he, mapError_ok, bind_of_ok, if_neg (by simp), bind_of_ok]
    exact ih outs (fun i' hi' => h i' (by simp [hi']))

theorem rawLoop_append (exec : List (String × α) → Except ε (List β)) (keys : List String)
    (kwargs : String → List α) (oe : Bool) :
    ∀ (is1 is2 : List Nat) (outs : List (List β)),
    rawLoop exec keys kwargs oe (is1 ++ is2) outs =
      (rawLoop exec keys kwargs oe is1 outs).bind (rawLoop exec keys kwargs oe is2) := by
  intro is1
  induction is1 with
  | nil =>
    intro is2 outs
    rfl
  | cons i rest ih =>
    intro is2 outs
    rw [List.cons_append, rawLoop, rawLoop]
    cases hb : buildSingleInputs (ε := ε) keys kwargs i with
    | error s => rfl
    | ok ins =>
      simp only [bind_of_ok]
      cases he : exec ins with
      | error s => rfl
      | ok o =>
        simp only [mapError_ok, bind_of_ok]
        cases oe with
        | false =>
          simp only [if_neg (show ¬(false = true) by simp), bind_of_ok]
          exact ih is2 outs
        | true =>
          simp only [if_pos rfl]
          cases ha : appendOutputs (ε := ε) outs o 0 with
          | error s => rfl
          | ok outs' =>
            exact ih is2 outs'

theorem rawLoop_cons_error_build (exec : List (String × α) → Except ε (List β))
    (keys : List String) (kwargs : String → List α) (oe : Bool) (i : Nat) (rest : List Nat)
    (outs : List (List β)) (h : buildSingleInputs (ε := ε) keys kwargs i = Except.error PyErr.indexError) :
    rawLoop exec keys kwargs oe (i :: rest) outs = Except.error PyErr.indexError := by
  rw [rawLoop, h, bind_of_error]

theorem rawLoop_cons_error_exec (exec : List (String × α) → Except ε (List β))
    (keys : List String) (kwargs : String → List α) (oe : Bool) (i : Nat) (rest : List Nat)
    (outs : List (List β)) (ins : List (String × α)) (err : ε)
    (hb : buildSingleInputs (ε := ε) keys kwargs i = Except.ok ins)
    (he : exec ins = Except.error err) :
    rawLoop exec keys kwargs oe (i :: rest) outs = Except.error (PyErr.userError err) := by
  rw [rawLoop, hb, bind_of_ok, he, mapError_error, bind_of_error]

theorem buildSingleInputs_error (kwargs : String → List α) (i : Nat) :
    ∀ (keys : List String), (∃ kk ∈ keys, (kwargs kk).length ≤ i) →
    buildSingleInputs (ε := ε) keys kwargs i = Except.error PyErr.indexError := by
  intro keys
  induction keys with
  | nil =>
    intro h
    obtain ⟨kk, hkk, _⟩ := h
    exact absurd hkk (List.not_mem_nil kk)
  | cons kk rest ih =>
    intro h
    by_cases hlen : (kwargs kk).length ≤ i
    · have : pyIndex (ε := ε) (kwargs kk) i = Except.error PyErr.indexError := by
        simp [pyIndex, List.getElem?_eq_none hlen]
      rw [buildSingleInputs, this, error_bind]
    · obtain ⟨kk', hkk', hlen'⟩ := h
      have hmem : kk' ∈ rest := by
        rcases List.mem_cons.mp hkk' with h1 | h1
        · exact absurd (h1 ▸ hlen') hlen
        · exact h1
      have hv : ∃ v, (kwargs kk)[i]? = some v := by
        refine ⟨(kwargs kk).get ⟨i, by omega⟩, ?_⟩
        rw [List.getElem?_eq_getElem (by omega)]
        rfl
      obtain ⟨v, hv⟩ := hv
      rw [buildSingleInputs, pyIndex_ok hv, ok_bind, ih ⟨kk', hmem, hlen'⟩, error_bind]

theorem buildSingleInputs_ok (kwargs : String → List α) (i : Nat) :
    ∀ (keys : List String), (∀ kk ∈ keys, i < (kwargs kk).length) →
    ∃ ins, buildSingleInputs (ε := ε) keys kwargs i = Except.ok ins := by
  intro keys
  induction keys with
  | nil =>
    intro _
    exact ⟨[], rfl⟩
  | cons kk rest ih =>
    intro h
    have hv : (kwargs kk)[i]? = some ((kwargs kk).get ⟨i, h kk (by simp)⟩) := by
      rw [List.getElem?_eq_getElem (h kk (by simp))]
      rfl
    obtain ⟨tl, htl⟩ := ih (fun kk' hk' => h kk' (by simp [hk']))
    refine ⟨(kk, (kwargs kk).get ⟨i, h kk (by simp)⟩) :: tl, ?_⟩
    rw [buildSingleInputs, pyIndex_ok hv, ok_bind, htl, ok_bind]

theorem buildSingleInputs_congr (kwargs kwargs' : String → List α) (i : Nat) :
    ∀ (keys : List String), (∀ kk ∈ keys, (kwargs kk)[i]? = (kwargs' kk)[i]?) →
    buildSingleInputs (ε := ε) keys kwargs i = buildSingleInputs (ε := ε) keys kwargs' i := by
  intro keys
  induction keys with
  | nil =>
    intro _
    rfl
  | cons kk rest ih =>
    intro h
    rw [buildSingleInputs, buildSingleInputs, ih (fun kk' hk' => h kk' (by simp [hk']))]
    have : pyIndex (ε := ε) (kwargs kk) i = pyIndex (ε := ε) (kwargs' kk) i := by
      rw [pyIndex, pyIndex, h kk (by simp)]
    rw [this]

theorem rawLoop_congr (exec : List (String × α) → Except ε (List β)) (keys : List String)
    (kwargs kwargs' : String → List α) (oe : Bool) :
    ∀ (is : List Nat) (outs : List (List β)),
    (∀ i ∈ is, buildSingleInputs (ε := ε) keys kwargs i = buildSingleInputs (ε := ε) keys kwargs' i) →
    rawLoop exec keys kwargs oe is outs = rawLoop exec keys kwargs' oe is outs := by
  intro is
  induction is with
  | nil =>
    intro outs _
    rfl
  | cons i rest ih =>
    intro outs h
    rw [rawLoop, rawLoop, h i (by simp)]
    cases buildSingleInputs (ε := ε) keys kwargs' i with
    | error s => rfl
    | ok ins =>
      simp only [bind_of_ok]
      cases exec ins with
      | error s => rfl
      | ok o =>
        simp only [mapError_ok, bind_of_ok]
        cases hi : (if oe = true then appendOutputs (ε := ε) outs o 0 else Except.ok outs) with
        | error s => rfl
        | ok outs' =>
          simp only [bind_of_ok]
          exact ih outs' (fun i' hi' => h i' (by simp [hi']))

theorem appendOutputs_len (o : List β) :
    ∀ (outs : List (List β)) (x : Nat), x + outs.length ≤ o.length →
    ∃ outs', appendOutputs (ε := ε) outs o x = Except.ok outs' ∧ outs'.length = outs.length := by
  intro outs
  induction outs with
  | nil =>
    intro x _
    exact ⟨[], rfl, rfl⟩
  | cons acc rest ih =>
    intro x hx
    have hxo : x < o.length := by
      simp [List.length_cons] at hx
      omega
    have hv : o[x]? = some (o.get ⟨x, hxo⟩) := by
      rw [List.getElem?_eq_getElem hxo]
      rfl
    obtain ⟨tl, htl, hlen⟩ := ih (x + 1) (by simp at hx ⊢; omega)
    refine ⟨(acc ++ [o.get ⟨x, hxo⟩]) :: tl, ?_, by simp [hlen]⟩
    rw [appendOutputs, pyIndex_ok hv, ok_bind, htl, ok_bind]

theorem rawLoop_len (exec : List (String × α) → Except ε (List β)) (keys : List String)
    (kwargs : String → List α) (k : Nat) :
    ∀ (is : List Nat) (outs : List (List β)), outs.length = k →
    (∀ i ∈ is, ∃ ins o, buildSingleInputs (ε := ε) keys kwargs i = Except.ok ins ∧
      exec ins = Except.ok o ∧ k ≤ o.length) →
    ∃ outs', rawLoop exec keys kwargs true is outs = Except.ok outs' ∧ outs'.length = k := by
  intro is
  induction is with
  | nil =>
    intro outs hlen _
    exact ⟨outs, rfl, hlen⟩
  | cons i rest ih =>
    intro outs hlen h
    obtain ⟨ins, o, hb, he, hk⟩ := h i (by simp)
    obtain ⟨outs1, ha, hlen1⟩ := appendOutputs_len (ε := ε) o outs 0 (by omega)
    obtain ⟨outs', hloop, hlen'⟩ := ih outs1 (hlen1.trans hlen) (fun i' hi' => h i' (by simp [hi']))
    refine ⟨outs', ?_, hlen'⟩
    rw [rawLoop, hb, bind_of_ok, he, mapError_ok, bind_of_ok, if_pos rfl, ha, bind_of_ok]
    exact hloop

theorem range_split {i0 N : Nat} (h : i0 < N) :
    ∃ tail, List.range N = List.range i0 ++ i0 :: tail := by
  have hN : N = i0 + (N - i0 - 1 + 1) := by omega
  refine ⟨(List.range (N - i0 - 1)).map (fun j => i0 + (j + 1)), ?_⟩
  rw [hN, List.range_add, List.range_succ_eq_map]
  simp [List.map_map, Function.comp]

theorem lookupVar_map_list (k : String) :
    ∀ (l : List (String × Ty)),
    lookupVar k (l.map (fun q => (q.1, Ty.list q.2))) = (lookupVar k l).map Ty.list := by
  intro l
  induction l with
  | nil => rfl
  | cons q rest ih =>
    by_cases hq : q.1 = k
    · simp [lookupVar, hq]
    · simp [lookupVar, hq, ih]

theorem buildSlotInputs_vals (kwargs : String → List α) (s : Int) (vals : String → α) :
    ∀ (keys : List String), (∀ kk ∈ keys, pyGetInt (kwargs kk) s = some (vals kk)) →
    buildSlotInputs (ε := ε) keys kwargs s = Except.ok (keys.map (fun kk => (kk, vals kk))) := by
  intro keys
  induction keys with
  | nil =>
    intro _
    rfl
  | cons kk rest ih =>
    intro h
    have hv : pyIndexInt (ε := ε) (kwargs kk) s = Except.ok (vals kk) := by
      rw [pyIndexInt, h kk (by simp)]
    rw [buildSlotInputs, hv, ok_bind, ih (fun kk' hk' => h kk' (by simp [hk'])), ok_bind,
      List.map_cons]

theorem outputs_interface_length (e : ElementTask α β ε) (c : Option Nat) (r : Option Rat)
    (ctx : ExecMode) :
    ((MapPythonTask.init e c r)._outputs_interface ctx).length = e.interface.outputs.length := by
  rw [MapPythonTask._outputs_interface]
  by_cases h : ctx = ExecMode.localWorkflowExecution
  · rw [if_pos h]
    simp [MapPythonTask.init, transform_interface_to_list_interface]
  · rw [if_neg h]
    simp [MapPythonTask.init]

theorem raw_execute_spec (e : ElementTask α β ε) (c : Option Nat) (r : Option Rat)
    (ctx : ExecMode) (kwargs : String → List α)
    (p : String × Ty) (ps : List (String × Ty)) (N k : Nat)
    (ins : Nat → List (String × α)) (out : Nat → Nat → β)
    (hin : e.interface.inputs = p :: ps)
    (hk1 : 1 ≤ k)
    (hk : e.interface.outputs.length = k)
    (hlen : ∀ q ∈ e.interface.inputs, (kwargs q.1).length = N)
    (hins : ∀ i < N,
      buildSingleInputs (ε := ε) (e.interface.inputs.map Prod.fst) kwargs i = Except.ok (ins i))
    (hexec : ∀ i < N, e.execute (ins i) = Except.ok ((List.range k).map (out i))) :
    (MapPythonTask.init e c r)._raw_execute ctx kwargs =
      Except.ok
        (if k = 1 then RawResult.single ((List.range N).map (fun i => out i 0))
         else RawResult.tup ((List.range k).map (fun j => (List.range N).map (fun i => out i j)))) := by
  have hpe : p ∈ e.interface.inputs := by
    rw [hin]
    exact List.mem_cons_self p ps
  have hNp : (kwargs p.1).length = N := hlen p hpe
  have hrun : (MapPythonTask.init e c r).run_task = e := rfl
  have hifc : (MapPythonTask.init e c r).interface = transform_interface_to_list_interface e.interface := rfl
  rw [MapPythonTask._raw_execute, hrun, hifc, hin]
  simp only [bind_of_ok]
  have hoe : (!(transform_interface_to_list_interface e.interface).outputs.isEmpty) = true := by
    cases houts : (transform_interface_to_list_interface e.interface).outputs with
    | nil =>
      have : (transform_interface_to_list_interface e.interface).outputs.length = k :=
        (transform_outputs_length e.interface).trans hk
      rw [houts] at this
      simp at this
      omega
    | cons a l => rfl
  rw [hoe, transform_inputs_names, hNp]
  have houts0 : (((MapPythonTask.init e c r)._outputs_interface ctx).map
      (fun _ => ([] : List β))).length = k := by
    rw [List.length_map, outputs_interface_length, hk]
  rw [rawLoop_ok e.execute (e.interface.inputs.map Prod.fst) kwargs out k ins (List.range N)
    _ houts0 (fun i hi => hins i (List.mem_range.mp hi)) (fun i hi => hexec i (List.mem_range.mp hi)),
    bind_of_ok]
  have hM : ((List.range k).map (fun j =>
      (((MapPythonTask.init e c r)._outputs_interface ctx).map (fun _ => ([] : List β))).getD j []
        ++ (List.range N).map (fun i => out i j)))
      = (List.range k).map (fun j => (List.range N).map (fun i => out i j)) := by
    apply List.map_congr_left
    intro j _
    rw [getD_map_nil, List.nil_append]
  rw [hM]
  have hMlen : ((List.range k).map (fun j => (List.range N).map (fun i => out i j))).length = k := by
    simp
  by_cases hk2 : k = 1
  · rw [if_pos (by rw [hMlen]; exact hk2), if_pos hk2]
    subst hk2
    rw [getD_map_range _ _ _ _ (by omega)]
  · rw [if_neg (by rw [hMlen]; exact hk2), if_neg hk2]

/-! Claim theorems. -/

/-- Claim C1: for every element task with at least one declared input and
`k ≥ 1` declared outputs, and every batch input whose collections all have
length `N`, local execution (`_raw_execute`) produces exactly `k` output
accumulators, each of length exactly `N`, where the element at position `i` of
accumulator `j` is the `j`-th output value produced by the element task at the
position-`i` inputs. -/
theorem claim_C1_local_batch (e : ElementTask α β ε) (c : Option Nat) (r : Option Rat)
    (ctx : ExecMode) (kwargs : String → List α)
    (p : String × Ty) (ps : List (String × Ty)) (N k : Nat)
    (ins : Nat → List (String × α)) (out : Nat → Nat → β)
    (hin : e.interface.inputs = p :: ps)
    (hk1 : 1 ≤ k)
    (hk : e.interface.outputs.length = k)
    (hlen : ∀ q ∈ e.interface.inputs, (kwargs q.1).length = N)
    (hins : ∀ i < N,
      buildSingleInputs (ε := ε) (e.interface.inputs.map Prod.fst) kwargs i = Except.ok (ins i))
    (hexec : ∀ i < N, e.execute (ins i) = Except.ok ((List.range k).map (out i))) :
    ∃ res, (MapPythonTask.init e c r)._raw_execute ctx kwargs = Except.ok res ∧
      res.accumulators.length = k ∧
      (∀ a ∈ res.accumulators, a.length = N) ∧
      res.accumulators = (List.range k).map (fun j => (List.range N).map (fun i => out i j)) := by
  have h := raw_execute_spec e c r ctx kwargs p ps N k ins out hin hk1 hk hlen hins hexec
  by_cases hk2 : k = 1
  · subst hk2
    rw [if_pos rfl] at h
    refine ⟨_, h, by simp [RawResult.accumulators], ?_, ?_⟩
    · intro a ha
      simp [RawResult.accumulators] at ha
      simp [ha]
    · simp [RawResult.accumulators, List.range_succ]
  · rw [if_neg hk2] at h
    refine ⟨_, h, by simp [RawResult.accumulators], ?_, by simp [RawResult.accumulators]⟩
    intro a ha
    simp [RawResult.accumulators] at ha
    obtain ⟨j, _, hj⟩ := ha
    simp [← hj]

/-- Claim C1 witness: the doubling element computation over `[1, 2, 3]` yields
the single accumulator `[2, 4, 6]`. -/
theorem claim_C1_witness :
    ∃ res, (MapPythonTask.init exDouble none none)._raw_execute ExecMode.other kwTriple
        = Except.ok res ∧
      res.accumulators.length = 1 ∧
      (∀ a ∈ res.accumulators, a.length = 3) ∧
      res.accumulators = [[2, 4, 6]] := by
  obtain ⟨res, h1, h2, h3, h4⟩ := claim_C1_local_batch exDouble none none ExecMode.other kwTriple
    ("a", Ty.base "int") [] 3 1
    (fun i => [("a", (kwTriple "a").getD i 0)]) (fun i _ => 2 * ((kwTriple "a").getD i 0))
    rfl (by decide) rfl (by decide) (by decide) (by decide)
  exact ⟨res, h1, h2, h3, h4.trans (by decide)⟩

/-- Claim C5: with exactly one declared output, local execution returns the
single accumulator directly as a bare collection; with `k > 1` declared
outputs it returns the ordered tuple of the `k` accumulators in declaration
order. -/
theorem claim_C5_result_shape (e : ElementTask α β ε) (c : Option Nat) (r : Option Rat)
    (ctx : ExecMode) (kwargs : String → List α)
    (p : String × Ty) (ps : List (String × Ty)) (N k : Nat)
    (ins : Nat → List (String × α)) (out : Nat → Nat → β)
    (hin : e.interface.inputs = p :: ps)
    (hk1 : 1 ≤ k)
    (hk : e.interface.outputs.length = k)
    (hlen : ∀ q ∈ e.interface.inputs, (kwargs q.1).length = N)
    (hins : ∀ i < N,
      buildSingleInputs (ε := ε) (e.interface.inputs.map Prod.fst) kwargs i = Except.ok (ins i))
    (hexec : ∀ i < N, e.execute (ins i) = Except.ok ((List.range k).map (out i))) :
    (k = 1 → (MapPythonTask.init e c r)._raw_execute ctx kwargs
       = Except.ok (RawResult.single ((List.range N).map (fun i => out i 0))))
    ∧ (1 < k → (MapPythonTask.init e c r)._raw_execute ctx kwargs
       = Except.ok (RawResult.tup
           ((List.range k).map (fun j => (List.range N).map (fun i => out i j))))) := by
  have h := raw_execute_spec e c r ctx kwargs p ps N k ins out hin hk1 hk hlen hins hexec
  constructor
  · intro hk2
    rwa [if_pos hk2] at h
  · intro hk2
    rwa [if_neg (by omega)] at h

/-- Claim C5 witness: the two-output element computation over three elements
returns the ordered pair of 3-element collections, not a flat collection. -/
theorem claim_C5_witness :
    (MapPythonTask.init exPair none none)._raw_execute ExecMode.other kwTriple
      = Except.ok (RawResult.tup [[2, 3, 4], [2, 4, 6]]) := by
  have h := (claim_C5_result_shape exPair none none ExecMode.other kwTriple
    ("a", Ty.base "int") [] 3 2
    (fun i => [("a", (kwTriple "a").getD i 0)])
    (fun i j => if j = 0 then (kwTriple "a").getD i 0 + 1 else 2 * ((kwTriple "a").getD i 0))
    rfl (by decide) rfl (by decide) (by decide) (by decide)).2 (by decide)
  exact h.trans (by decide)

/-- Claim C10: an element task with an empty input interface makes local
execution fail with an IndexError while selecting the first declared input
key, instead of performing a zero-iteration batch. -/
theorem claim_C10_empty_inputs (e : ElementTask α β ε) (c : Option Nat) (r : Option Rat)
    (ctx : ExecMode) (kwargs : String → List α)
    (hin : e.interface.inputs = []) :
    (MapPythonTask.init e c r)._raw_execute ctx kwargs = Except.error PyErr.indexError := by
  have hrun : (MapPythonTask.init e c r).run_task = e := rfl
  rw [MapPythonTask._raw_execute, hrun, hin]
  rfl

/-- Claim C10 witness: the nullary-input element task fails with IndexError on
any batch input. -/
theorem claim_C10_witness :
    (MapPythonTask.init exNullary none none)._raw_execute ExecMode.other kwTriple
      = Except.error PyErr.indexError :=
  claim_C10_empty_inputs exNullary none none ExecMode.other kwTriple rfl

/-- Claim C6: for an element task declaring zero outputs, local execution still
invokes the element task once per input position and returns the empty tuple
of accumulators, which carries no output value.  The first conjunct covers the
all-successful run; the second shows every position `i0` really is executed:
a failure there surfaces as the result. -/
theorem claim_C6_zero_outputs (e : ElementTask α β ε) (c : Option Nat) (r : Option Rat)
    (ctx : ExecMode) (kwargs : String → List α)
    (p : String × Ty) (ps : List (String × Ty)) (N : Nat)
    (ins : Nat → List (String × α)) (os : Nat → List β)
    (houts : e.interface.outputs = [])
    (hin : e.interface.inputs = p :: ps)
    (hlen : ∀ q ∈ e.interface.inputs, (kwargs q.1).length = N)
    (hins : ∀ i < N,
      buildSingleInputs (ε := ε) (e.interface.inputs.map Prod.fst) kwargs i = Except.ok (ins i)) :
    ((∀ i < N, e.execute (ins i) = Except.ok (os i)) →
      (MapPythonTask.init e c r)._raw_execute ctx kwargs = Except.ok (RawResult.tup []))
    ∧ (∀ i0 err, i0 < N → (∀ i < i0, e.execute (ins i) = Except.ok (os i)) →
        e.execute (ins i0) = Except.error err →
        (MapPythonTask.init e c r)._raw_execute ctx kwargs
          = Except.error (PyErr.userError err)) := by
  have hrun : (MapPythonTask.init e c r).run_task = e := rfl
  have hifc : (MapPythonTask.init e c r).interface
      = transform_interface_to_list_interface e.interface := rfl
  have hpe : p ∈ e.interface.inputs := by
    rw [hin]
    exact List.mem_cons_self p ps
  have hNp : (kwargs p.1).length = N := hlen p hpe
  have hoe : (!(transform_interface_to_list_interface e.interface).outputs.isEmpty) = false := by
    simp [transform_interface_to_list_interface, houts]
  have houts0 : ((MapPythonTask.init e c r)._outputs_interface ctx).map (fun _ => ([] : List β))
      = [] := by
    have hl : (((MapPythonTask.init e c r)._outputs_interface ctx).map
        (fun _ => ([] : List β))).length = 0 := by
      rw [List.length_map, outputs_interface_length, houts]
      rfl
    exact List.eq_nil_of_length_eq_zero hl
  constructor
  · intro hexec
    rw [MapPythonTask._raw_execute, hrun, hifc, hin]
    simp only [bind_of_ok]
    rw [hoe, transform_inputs_names, hNp, houts0,
      rawLoop_false e.execute (e.interface.inputs.map Prod.fst) kwargs ins os (List.range N) []
        (fun i hi => hins i (List.mem_range.mp hi)) (fun i hi => hexec i (List.mem_range.mp hi)),
      bind_of_ok]
    rfl
  · intro i0 err hi0 hbefore hfail
    rw [MapPythonTask._raw_execute, hrun, hifc, hin]
    simp only [bind_of_ok]
    obtain ⟨tail, htail⟩ := range_split hi0
    rw [hoe, transform_inputs_names, hNp, houts0, htail, rawLoop_append,
      rawLoop_false e.execute (e.interface.inputs.map Prod.fst) kwargs ins os (List.range i0) []
        (fun i hi => hins i (by have := List.mem_range.mp hi; omega))
        (fun i hi => hbefore i (List.mem_range.mp hi)),
      bind_of_ok,
      rawLoop_cons_error_exec e.execute (e.interface.inputs.map Prod.fst) kwargs false i0 tail []
        (ins i0) err (hins i0 (by omega)) hfail,
      bind_of_error]

/-- Claim C6 witness: the zero-output element task over `[1, 2, 3]` executes
and returns the empty tuple. -/
theorem claim_C6_witness :
    (MapPythonTask.init exVoid none none)._raw_execute ExecMode.other kwTriple
      = Except.ok (RawResult.tup []) :=
  (claim_C6_zero_outputs exVoid none none ExecMode.other kwTriple
    ("a", Ty.base "int") [] 3 (fun i => [("a", (kwTriple "a").getD i 0)]) (fun _ => [])
    rfl rfl (by decide) (by decide)).1 (by decide)

/-- Claim C8: a failure of the element task at position `i0` of a local batch
run propagates unchanged and immediately: whatever the element task would do at
later positions, the result is exactly that failure, and no fragment of the
output collection is returned. -/
theorem claim_C8_failure_propagation (e : ElementTask α β ε) (c : Option Nat) (r : Option Rat)
    (ctx : ExecMode) (kwargs : String → List α)
    (p : String × Ty) (ps : List (String × Ty)) (N k : Nat)
    (ins : Nat → List (String × α)) (out : Nat → Nat → β) (i0 : Nat) (err : ε)
    (hin : e.interface.inputs = p :: ps)
    (hk : e.interface.outputs.length = k)
    (hlen : ∀ q ∈ e.interface.inputs, (kwargs q.1).length = N)
    (hi0 : i0 < N)
    (hins : ∀ i ≤ i0,
      buildSingleInputs (ε := ε) (e.interface.inputs.map Prod.fst) kwargs i = Except.ok (ins i))
    (hbefore : ∀ i < i0, e.execute (ins i) = Except.ok ((List.range k).map (out i)))
    (hfail : e.execute (ins i0) = Except.error err) :
    (MapPythonTask.init e c r)._raw_execute ctx kwargs
      = Except.error (PyErr.userError err) := by
  have hrun : (MapPythonTask.init e c r).run_task = e := rfl
  have hifc : (MapPythonTask.init e c r).interface
      = transform_interface_to_list_interface e.interface := rfl
  have hpe : p ∈ e.interface.inputs := by
    rw [hin]
    exact List.mem_cons_self p ps
  have hNp : (kwargs p.1).length = N := hlen p hpe
  obtain ⟨tail, htail⟩ := range_split hi0
  rw [MapPythonTask._raw_execute, hrun, hifc, hin]
  simp only [bind_of_ok]
  rw [transform_inputs_names, hNp, htail, rawLoop_append]
  cases hoe : (!(transform_interface_to_list_interface e.interface).outputs.isEmpty) with
  | false =>
    rw [rawLoop_false e.execute (e.interface.inputs.map Prod.fst) kwargs ins
        (fun i => (List.range k).map (out i)) (List.range i0) _
        (fun i hi => hins i (by have := List.mem_range.mp hi; omega))
        (fun i hi => hbefore i (List.mem_range.mp hi)),
      bind_of_ok,
      rawLoop_cons_error_exec e.execute (e.interface.inputs.map Prod.fst) kwargs false i0 tail _
        (ins i0) err (hins i0 (by omega)) hfail,
      bind_of_error]
  | true =>
    have hk0 : (((MapPythonTask.init e c r)._outputs_interface ctx).map
        (fun _ => ([] : List β))).length = k := by
      rw [List.length_map, outputs_interface_length, hk]
    obtain ⟨outs1, houts1, _⟩ := rawLoop_len e.execute (e.interface.inputs.map Prod.fst) kwargs k
      (List.range i0) _ hk0
      (fun i hi => ⟨ins i, (List.range k).map (out i),
        hins i (by have := List.mem_range.mp hi; omega),
        hbefore i (List.mem_range.mp hi), by simp⟩)
    rw [houts1, bind_of_ok,
      rawLoop_cons_error_exec e.execute (e.interface.inputs.map Prod.fst) kwargs true i0 tail
        outs1 (ins i0) err (hins i0 (by omega)) hfail,
      bind_of_error]

/-- Claim C8 witness: the element task failing on input 2 makes the local run
over `[1, 2, 3]` fail with exactly that failure. -/
theorem claim_C8_witness :
    (MapPythonTask.init exFragile none none)._raw_execute ExecMode.other kwTriple
      = Except.error (PyErr.userError ()) :=
  claim_C8_failure_propagation exFragile none none ExecMode.other kwTriple
    ("a", Ty.base "int") [] 3 1
    (fun i => [("a", (kwTriple "a").getD i 0)]) (fun i _ => 2 * ((kwTriple "a").getD i 0))
    1 () rfl rfl (by decide) (by decide) (by decide) (by decide) (by decide)

/-- Claim C9: local execution takes the batch cardinality solely from the
collection bound to the first declared input and never checks the other
collections' lengths.  First conjunct: if the shortest input collection (of
length `m0`) is shorter than the first one, the run fails with an IndexError
(the first out-of-range access, reached after the earlier positions ran).
Second conjunct: only the first `n` elements of every collection matter, where
`n` is the first collection's length — longer collections' trailing elements
are silently ignored. -/
theorem claim_C9_ragged_lengths (e : ElementTask α β ε) (c : Option Nat) (r : Option Rat)
    (ctx : ExecMode) (kwargs : String → List α)
    (p : String × Ty) (ps : List (String × Ty)) (os : List (String × α) → List β)
    (hin : e.interface.inputs = p :: ps)
    (hexec : ∀ i, e.execute i = Except.ok (os i))
    (hoslen : ∀ i, e.interface.outputs.length ≤ (os i).length) :
    (∀ m0, (∀ q ∈ e.interface.inputs, m0 ≤ (kwargs q.1).length) →
        (∃ q ∈ e.interface.inputs, (kwargs q.1).length = m0) →
        m0 < (kwargs p.1).length →
        (MapPythonTask.init e c r)._raw_execute ctx kwargs = Except.error PyErr.indexError)
    ∧ (∀ kwargs' : String → List α, (kwargs' p.1).length = (kwargs p.1).length →
        (∀ q ∈ e.interface.inputs, (kwargs' q.1).take (kwargs p.1).length
          = (kwargs q.1).take (kwargs p.1).length) →
        (MapPythonTask.init e c r)._raw_execute ctx kwargs'
          = (MapPythonTask.init e c r)._raw_execute ctx kwargs) := by
  have hrun : (MapPythonTask.init e c r).run_task = e := rfl
  have hifc : (MapPythonTask.init e c r).interface
      = transform_interface_to_list_interface e.interface := rfl
  constructor
  · intro m0 hm0 hm0w hlt
    rw [MapPythonTask._raw_execute, hrun, hifc, hin]
    simp only [bind_of_ok]
    rw [transform_inputs_names]
    obtain ⟨tail, htail⟩ := range_split hlt
    rw [htail, rawLoop_append]
    have hbuild : ∀ i ∈ List.range m0, ∃ ins,
        buildSingleInputs (ε := ε) (e.interface.inputs.map Prod.fst) kwargs i = Except.ok ins := by
      intro i hi
      apply buildSingleInputs_ok
      intro kk hkk
      obtain ⟨q, hq, hq1⟩ := List.mem_map.mp hkk
      have h1 := hm0 q hq
      have h2 := List.mem_range.mp hi
      rw [← hq1]
      omega
    have hstop : buildSingleInputs (ε := ε) (e.interface.inputs.map Prod.fst) kwargs m0
        = Except.error PyErr.indexError := by
      apply buildSingleInputs_error
      obtain ⟨q, hq, hq1⟩ := hm0w
      exact ⟨q.1, List.mem_map.mpr ⟨q, hq, rfl⟩, by omega⟩
    cases hoe : (!(transform_interface_to_list_interface e.interface).outputs.isEmpty) with
    | false =>
      rw [rawLoop_false_len e.execute (e.interface.inputs.map Prod.fst) kwargs
          (List.range m0) _
          (fun i hi => by
            obtain ⟨ins, hb⟩ := hbuild i hi
            exact ⟨ins, hb, os ins, hexec ins⟩),
        bind_of_ok,
        rawLoop_cons_error_build e.execute (e.interface.inputs.map Prod.fst) kwargs false m0
          tail _ hstop, bind_of_error]
    | true =>
      have hk0 : (((MapPythonTask.init e c r)._outputs_interface ctx).map
          (fun _ => ([] : List β))).length = e.interface.outputs.length := by
        rw [List.length_map, outputs_interface_length]
      obtain ⟨outs1, houts1, _⟩ := rawLoop_len e.execute (e.interface.inputs.map Prod.fst)
        kwargs (e.interface.outputs.length) (List.range m0)
        (((MapPythonTask.init e c r)._outputs_interface ctx).map (fun _ => ([] : List β)))
        hk0
        (fun i hi => by
          obtain ⟨ins, hins⟩ := hbuild i hi
          exact ⟨ins, os ins, hins, hexec ins, hoslen ins⟩)
      rw [houts1, bind_of_ok,
        rawLoop_cons_error_build e.execute (e.interface.inputs.map Prod.fst) kwargs true m0
          tail outs1 hstop, bind_of_error]
  · intro kwargs' hn htake
    rw [MapPythonTask._raw_execute, MapPythonTask._raw_execute, hrun, hifc, hin]
    simp only [bind_of_ok]
    rw [transform_inputs_names, hn,
      rawLoop_congr e.execute (e.interface.inputs.map Prod.fst) kwargs' kwargs _
        (List.range (kwargs p.1).length) _ ?hcong]
    case hcong =>
      intro i hi
      have hiN : i < (kwargs p.1).length := List.mem_range.mp hi
      apply buildSingleInputs_congr
      intro kk hkk
      obtain ⟨q, hq, hq1⟩ := List.mem_map.mp hkk
      have ht := htake q hq
      rw [← hq1]
      calc (kwargs' q.1)[i]? = ((kwargs' q.1).take (kwargs p.1).length)[i]? :=
            (List.getElem?_take_of_lt hiN).symm
        _ = ((kwargs q.1).take (kwargs p.1).length)[i]? := by rw [ht]
        _ = (kwargs q.1)[i]? := List.getElem?_take_of_lt hiN

/-- Claim C9 witness: with `a = [1, 2, 3]` and `b = [10]` the local run fails
with an IndexError, and a batch whose `b` has trailing elements beyond the
length of `a` gives the same result as its truncation. -/
theorem claim_C9_witness :
    (MapPythonTask.init exAdd none none)._raw_execute ExecMode.other kwRagged
      = Except.error PyErr.indexError
    ∧ (MapPythonTask.init exAdd none none)._raw_execute ExecMode.other kwCut
      = (MapPythonTask.init exAdd none none)._raw_execute ExecMode.other kwLong := by
  constructor
  · exact (claim_C9_ragged_lengths exAdd none none ExecMode.other kwRagged
      ("a", Ty.base "int") [("b", Ty.base "int")] (fun i => [exAddSum i])
      rfl (fun _ => rfl) (fun i => le_refl 1)).1 1 (by decide) (by decide) (by decide)
  · exact (claim_C9_ragged_lengths exAdd none none ExecMode.other kwLong
      ("a", Ty.base "int") [("b", Ty.base "int")] (fun i => [exAddSum i])
      rfl (fun _ => rfl) (fun i => le_refl 1)).2 kwCut (by decide) (by decide)

/-- Claim C2: distributed-slot execution returns exactly the element task's
result on the scalar mapping obtained by indexing every named input collection
at the resolved slot index, unchanged; consequently two batch inputs agreeing
at that index produce identical results, regardless of collection lengths. -/
theorem claim_C2_slot_execution (e : ElementTask α β ε) (c : Option Nat) (r : Option Rat)
    (env : Env) (kwargs : String → List α) (s : Int) (vals : String → α)
    (hidx : MapPythonTask._compute_array_job_index env = Except.ok s)
    (hvals : ∀ q ∈ e.interface.inputs, pyGetInt (kwargs q.1) s = some (vals q.1)) :
    ((MapPythonTask.init e c r)._execute_map_task env kwargs
       = (e.execute (e.interface.inputs.map (fun q => (q.1, vals q.1)))).mapError
           PyErr.userError)
    ∧ (∀ kwargs' : String → List α,
        (∀ q ∈ e.interface.inputs, pyGetInt (kwargs' q.1) s = pyGetInt (kwargs q.1) s) →
        (MapPythonTask.init e c r)._execute_map_task env kwargs'
          = (MapPythonTask.init e c r)._execute_map_task env kwargs) := by
  have hrun : (MapPythonTask.init e c r).run_task = e := rfl
  have hifc : (MapPythonTask.init e c r).interface
      = transform_interface_to_list_interface e.interface := rfl
  have key : ∀ kw : String → List α,
      (∀ q ∈ e.interface.inputs, pyGetInt (kw q.1) s = some (vals q.1)) →
      (MapPythonTask.init e c r)._execute_map_task env kw
        = (e.execute (e.interface.inputs.map (fun q => (q.1, vals q.1)))).mapError
            PyErr.userError := by
    intro kw hv
    rw [MapPythonTask._execute_map_task, hrun, hifc, hidx]
    simp only [bind_of_ok]
    rw [transform_inputs_names,
      buildSlotInputs_vals kw s vals (e.interface.inputs.map Prod.fst) ?hv, bind_of_ok,
      List.map_map]
    case _ =>
      have hmm : List.map ((fun kk => (kk, vals kk)) ∘ Prod.fst) e.interface.inputs
          = List.map (fun q => (q.1, vals q.1)) e.interface.inputs := by
        apply List.map_congr_left
        intro q _
        rfl
      rw [hmm]
    case hv =>
      intro kk hkk
      obtain ⟨q, hq, hq1⟩ := List.mem_map.mp hkk
      rw [← hq1]
      exact hv q hq
  refine ⟨key kwargs hvals, fun kwargs' hagree => ?_⟩
  rw [key kwargs hvals, key kwargs' (fun q hq => (hagree q hq).trans (hvals q hq))]

/-- Claim C2 witness: with the slot index resolved to 1 and `a = [10, 20, 30]`,
slot execution returns the element task's result on `a = 20`. -/
theorem claim_C2_witness :
    (MapPythonTask.init exInc none none)._execute_map_task envSlotOne kwSlots
      = Except.ok [21] := by
  have h := (claim_C2_slot_execution exInc none none envSlotOne kwSlots 1 (fun _ => 20)
    (by decide) (by decide)).1
  exact h.trans (by decide)

theorem rawIndexChain_ok (env : Env) (o : Int) (name v : String) (raw : Int)
    (hname : env "BATCH_JOB_ARRAY_INDEX_VAR_NAME" = some name)
    (hv : env name = some v) (hraw : pyInt v = some raw) :
    rawIndexChain env o = Except.ok (o + raw) := by
  simp only [rawIndexChain, hname, hv, hraw]

theorem rawIndexChain_error (env : Env) (o : Int)
    (h : env "BATCH_JOB_ARRAY_INDEX_VAR_NAME" = none
       ∨ ∃ name, env "BATCH_JOB_ARRAY_INDEX_VAR_NAME" = some name ∧
           (env name = none ∨ ∃ v, env name = some v ∧ pyInt v = none)) :
    rawIndexChain env o = Except.error ConfigurationError.configurationError := by
  rcases h with h | ⟨name, hname, h2 | ⟨v, hv, hpv⟩⟩
  · simp only [rawIndexChain, h]
  · simp only [rawIndexChain, hname, h2]
  · simp only [rawIndexChain, hname, hv, hpv]

/-- Claim C3, amended: when the raw-index indirection chain resolves to a valid
non-negative integer, the resolver returns `offset + rawIndex`, where the
offset is 0 when its variable is absent or set to the empty string, and the
parsed value of the offset variable when it is set to a non-empty string. -/
theorem claim_C3_index_arithmetic (env : Env) (name v : String) (raw : Int)
    (hname : env "BATCH_JOB_ARRAY_INDEX_VAR_NAME" = some name)
    (hv : env name = some v)
    (hraw : pyInt v = some raw)
    (hraw0 : 0 ≤ raw) :
    ((env "BATCH_JOB_ARRAY_INDEX_OFFSET" = none
        ∨ env "BATCH_JOB_ARRAY_INDEX_OFFSET" = some "") →
       MapPythonTask._compute_array_job_index env = Except.ok raw)
    ∧ (∀ s off, env "BATCH_JOB_ARRAY_INDEX_OFFSET" = some s → s ≠ "" → pyInt s = some off →
       MapPythonTask._compute_array_job_index env = Except.ok (off + raw)) := by
  have hchain : ∀ o : Int, rawIndexChain env o = Except.ok (o + raw) :=
    fun o => rawIndexChain_ok env o name v raw hname hv hraw
  constructor
  · rintro (hoff | hoff)
    · simp [MapPythonTask._compute_array_job_index, hoff, hchain]
    · simp [MapPythonTask._compute_array_job_index, hoff, hchain]
  · intro s off hoff hs hps
    simp [MapPythonTask._compute_array_job_index, hoff, hs, hps, hchain]

/-- Claim C3 witness, spec Example B: offset variable `"10"` and raw index
`"1"` resolve to slot index 11. -/
theorem claim_C3_witness :
    MapPythonTask._compute_array_job_index envExampleB = Except.ok 11 := by
  have h := (claim_C3_index_arithmetic envExampleB "AWS_BATCH_JOB_ARRAY_INDEX" "1" 1
    rfl rfl (by decide) (by decide)).2 "10" 10 rfl (by decide) (by decide)
  exact h.trans (by decide)

/-- Claim C3 counterexample: with the offset variable set (to the empty
string) and the raw index resolving to 1, the resolver returns 1, ignoring the
set offset variable; there is no parsed value of that set offset at all, so
the result is not "parsed offset + rawIndex" as the claim states for every set
offset variable. -/
theorem claim_C3_counterexample :
    envEmptyOffset "BATCH_JOB_ARRAY_INDEX_OFFSET" = some ""
    ∧ MapPythonTask._compute_array_job_index envEmptyOffset = Except.ok 1
    ∧ ¬ ∃ off : Int, pyInt "" = some off
        ∧ MapPythonTask._compute_array_job_index envEmptyOffset = Except.ok (off + 1) := by
  refine ⟨rfl, by decide, ?_⟩
  rintro ⟨off, hoff, _⟩
  have hempty : pyInt "" = none := by decide
  rw [hempty] at hoff
  exact Option.noConfusion hoff

/-- Claim C4: whenever the indirection variable is unset, or the variable it
names is unset or holds a non-integer string, the index computation fails with
the configuration failure, whatever the offset variable holds. -/
theorem claim_C4_config_error (env : Env)
    (h : env "BATCH_JOB_ARRAY_INDEX_VAR_NAME" = none
       ∨ ∃ name, env "BATCH_JOB_ARRAY_INDEX_VAR_NAME" = some name ∧
           (env name = none ∨ ∃ v, env name = some v ∧ pyInt v = none)) :
    MapPythonTask._compute_array_job_index env
      = Except.error ConfigurationError.configurationError := by
  cases hoff : env "BATCH_JOB_ARRAY_INDEX_OFFSET" with
  | none =>
    simp only [MapPythonTask._compute_array_job_index, hoff]
    exact rawIndexChain_error env 0 h
  | some s =>
    simp only [MapPythonTask._compute_array_job_index, hoff]
    by_cases hs : s = ""
    · rw [if_pos hs]
      exact rawIndexChain_error env 0 h
    · rw [if_neg hs]
      cases hps : pyInt s with
      | none => rfl
      | some off => exact rawIndexChain_error env off h

/-- Claim C4 witness: the empty environment makes the index computation fail
with the configuration failure. -/
theorem claim_C4_witness :
    MapPythonTask._compute_array_job_index envUnset
      = Except.error ConfigurationError.configurationError :=
  claim_C4_config_error envUnset (Or.inl rfl)

/-- Claim C7: the two output-interface queries answer with the dispatcher's
batch-shaped collection interface exactly in the local-workflow-simulation
context, and with the wrapped element task's scalar output interface in every
other context (including distributed slot execution). -/
theorem claim_C7_output_interface_duality (e : ElementTask α β ε) (c : Option Nat)
    (r : Option Rat) (ctx : ExecMode) (name : String) (ty : Ty)
    (hty : lookupVar name e.interface.outputs = some ty)
    (hctx : ctx ≠ ExecMode.localWorkflowExecution) :
    ((MapPythonTask.init e c r)._outputs_interface ExecMode.localWorkflowExecution
        = e.interface.outputs.map (fun q => (q.1, Ty.list q.2))
      ∧ (MapPythonTask.init e c r).get_type_for_output_var ExecMode.localWorkflowExecution name
        = some (Ty.list ty))
    ∧ ((MapPythonTask.init e c r)._outputs_interface ctx = e.interface.outputs
      ∧ (MapPythonTask.init e c r).get_type_for_output_var ctx name = some ty) := by
  refine ⟨⟨?_, ?_⟩, ?_, ?_⟩
  · rw [MapPythonTask._outputs_interface, if_pos rfl]
    rfl
  · rw [MapPythonTask.get_type_for_output_var, if_pos rfl]
    have hi : (MapPythonTask.init e c r).interface.outputs
        = e.interface.outputs.map (fun q => (q.1, Ty.list q.2)) := rfl
    rw [hi, lookupVar_map_list, hty]
    rfl
  · rw [MapPythonTask._outputs_interface, if_neg hctx]
    rfl
  · rw [MapPythonTask.get_type_for_output_var, if_neg hctx]
    exact hty

/-- Claim C7 witness: for the doubling element task, the two queries answer
with the collection-typed output in the local-workflow-simulation context and
with the scalar output in the distributed task-execution context. -/
theorem claim_C7_witness :
    (MapPythonTask.init exDouble none none)._outputs_interface
        ExecMode.localWorkflowExecution = [("o", Ty.list (Ty.base "int"))]
    ∧ (MapPythonTask.init exDouble none none).get_type_for_output_var
        ExecMode.localWorkflowExecution "o" = some (Ty.list (Ty.base "int"))
    ∧ (MapPythonTask.init exDouble none none)._outputs_interface ExecMode.taskExecution
        = [("o", Ty.base "int")]
    ∧ (MapPythonTask.init exDouble none none).get_type_for_output_var
        ExecMode.taskExecution "o" = some (Ty.base "int") := by
  obtain ⟨⟨h1, h2⟩, h3, h4⟩ := claim_C7_output_interface_duality exDouble none none
    ExecMode.taskExecution "o" (Ty.base "int") (by decide) (by decide)
  exact ⟨h1.trans (by decide), h2, h3.trans (by decide), h4⟩

end MapTaskModel
